import Mathlib

/-!
# Verification of the Polymarket trading bot's order core (`src/signer.py`)

Shallow embedding of the order-normalization and order-signing core of the
repository.  Prices and sizes are modelled as exact rationals (`ℚ`); Python's
`round(x, n)` (round-half-to-even to `n` decimal places) is modelled by
`rnd n x` built on the exact round-half-to-even integer rounding `rhe`.
The source performs the arithmetic in binary floating point; the embedding
performs it exactly, which is the decimal-accurate reading of the same
algorithm (the spec itself flags host-float tie behaviour as an open
question and mandates the exact-decimal reading).

Externally supplied cryptographic primitives (secp256k1 key derivation,
keccak-based EIP-55 checksumming, ECDSA signing, the RNG behind
`random.randint`) are not part of the repository; they enter the embedding
as explicit parameters (a key-derivation function, a per-character checksum
bit stream, a signature string, a random seed), so every theorem quantifies
over them.
-/

namespace PolySigner

/-! ## Definitions: the embedded data model and operations -/

/-- Round-half-to-even of a rational to an integer: the model of Python 3's
built-in `round(x)` on an exact value.  Values with fractional part below
`1/2` round down, above `1/2` round up, and exact ties go to the even
integer. -/
def rhe (x : ℚ) : ℤ :=
  if Int.fract x < 1/2 then ⌊x⌋
  else if 1/2 < Int.fract x then ⌊x⌋ + 1
  else if Even ⌊x⌋ then ⌊x⌋ else ⌊x⌋ + 1

/-- Python's `round(x, d)`: round `x` to `d` decimal places,
half-to-even. -/
def rnd (d : ℕ) (x : ℚ) : ℚ := (rhe (x * 10 ^ d) : ℚ) / 10 ^ d

/-- Model of Python's `str.upper()` on ASCII strings (the source calls it on
the order side before validating it). -/
def strUpper (s : String) : String := String.mk (s.data.map Char.toUpper)

/-- The order record of `src/signer.py` (`@dataclass class Order`), before
`__post_init__` runs: caller-facing fields with the source's defaults
(`nonce=None`, `fee_rate_bps=0`, `signature_type=2`, `order_type="GTC"`).
`token_id` is held as an integer (the source holds the decimal string and
parses it with `int(...)` at signing time; no claim concerns that parse). -/
structure Order where
  token_id : ℤ
  price : ℚ
  size : ℚ
  side : String
  maker : String
  nonce : Option ℤ := none
  fee_rate_bps : ℤ := 0
  signature_type : ℤ := 2
  order_type : String := "GTC"

/-- The state of an `Order` after a successful `__post_init__`: the
validated/uppercased side, tick-rounded price, defaulted nonce, and the
computed `maker_amount`, `taker_amount` (held as integers; the source holds
their decimal-string rendering, reparsed with `int(...)` at signing time)
and `side_value`. -/
structure NormalizedOrder where
  token_id : ℤ
  price : ℚ
  size : ℚ
  side : String
  maker : String
  nonce : ℤ
  fee_rate_bps : ℤ
  signature_type : ℤ
  order_type : String
  maker_amount : ℤ
  taker_amount : ℤ
  side_value : ℤ

/-- The amount computation of `Order.__post_init__` (`src/signer.py`
lines 93–115), as a function of exactly the inputs it reads: the order
type, the (already uppercased) side, the tick-rounded price and the raw
size.  Returns `(maker_amount, taker_amount)`. -/
def computeAmounts (order_type side : String) (price size : ℚ) : ℤ × ℤ :=
  -- is_market_order = self.order_type in ("FOK", "FAK")
  if side = "BUY" then
    if order_type = "FOK" ∨ order_type = "FAK" then
      -- Market BUY: USDC max 2 decimals, shares max 4 decimals
      let shares_amount := rnd 4 size
      let usdc_amount := rnd 2 (shares_amount * price)
      (rhe (usdc_amount * 10 ^ 2) * 10 ^ 4, rhe (shares_amount * 10 ^ 4) * 10 ^ 2)
    else
      -- Limit BUY: USDC max 4 decimals, shares max 2 decimals
      let shares_amount := rnd 2 size
      let usdc_amount := rnd 4 (shares_amount * price)
      (rhe (usdc_amount * 10 ^ 4) * 10 ^ 2, rhe (shares_amount * 10 ^ 2) * 10 ^ 4)
  else  -- SELL
    -- ALL SELL orders: shares max 2 decimals, USDC max 4 decimals
    let shares_amount := rnd 2 size
    let usdc_amount := rnd 4 (shares_amount * price)
    (rhe (shares_amount * 10 ^ 2) * 10 ^ 4, rhe (usdc_amount * 10 ^ 4) * 10 ^ 2)

/-- Model of `Order.__post_init__` (`src/signer.py` lines 62–115): validate side,
price and size (raising `ValueError`, modelled as `Except.error`), default
the nonce to 0, round the price to the 0.01 tick, then compute the
maker/taker amounts and the numeric side code. -/
def postInit (o : Order) : Except String NormalizedOrder :=
  let side := strUpper o.side
  if ¬ (side = "BUY" ∨ side = "SELL") then
    .error "Invalid side"
  else if ¬ (0 < o.price ∧ o.price ≤ 1) then
    .error "Invalid price"
  else if o.size ≤ 0 then
    .error "Invalid size"
  else
    let nonce := o.nonce.getD 0
    -- Round price to minimum tick size (0.01) first
    let price := rnd 2 o.price
    let amounts := computeAmounts o.order_type side price o.size
    .ok
      { token_id := o.token_id
        price := price
        size := o.size
        side := side
        maker := o.maker
        nonce := nonce
        fee_rate_bps := o.fee_rate_bps
        signature_type := o.signature_type
        order_type := o.order_type
        maker_amount := amounts.1
        taker_amount := amounts.2
        side_value := if side = "BUY" then 0 else 1 }

/-- Projection of a normalization run to the data the amount claims are
about: `some (maker_amount, taker_amount, side_value)` on success, `none`
on a raised `ValueError`. -/
def normAmounts (o : Order) : Option (ℤ × ℤ × ℤ) :=
  (postInit o).toOption.map fun r => (r.maker_amount, r.taker_amount, r.side_value)

/-- The §4.1 reference algorithm, written from the specification's words
(claim C1): round the price to the 0.01 tick; select the
(shares-decimals, quote-decimals) row for (side, order_class); round the
size to the shares ceiling; derive the quote amount from the
already-rounded shares and round it to the quote ceiling; convert each leg
as `round(value × 10^d) × 10^(6−d)`; assign maker/taker by side and set
`side_code` 0 for BUY, 1 for SELL.  Returns
`(maker_amount, taker_amount, side_code)`. -/
def specAmounts (order_class side : String) (price size : ℚ) : ℤ × ℤ × ℤ :=
  let p := rnd 2 price
  let sharesDec : ℕ := if side = "BUY" ∧ (order_class = "FOK" ∨ order_class = "FAK") then 4 else 2
  let quoteDec : ℕ := if side = "BUY" ∧ (order_class = "FOK" ∨ order_class = "FAK") then 2 else 4
  let shares := rnd sharesDec size
  let quote := rnd quoteDec (shares * p)
  let sharesInt := rhe (shares * 10 ^ sharesDec) * 10 ^ (6 - sharesDec)
  let quoteInt := rhe (quote * 10 ^ quoteDec) * 10 ^ (6 - quoteDec)
  if side = "BUY" then (quoteInt, sharesInt, 0) else (sharesInt, quoteInt, 1)

/-- The LIMIT (GTC) BUY order of concrete scenario 1 of the spec:
price 0.70, size 1.47 (`test_decimal_precision.py`'s first case). -/
def scenario1Order : Order :=
  { token_id := 17677
    price := 7/10
    size := 147/100
    side := "BUY"
    maker := "0x81E16FFAED0357FCB6514F5F59B961Bbf29152a5"
    order_type := "GTC" }

/-- An in-domain order (price = 1, size = 10¹⁰⁰) whose normalized amounts
overflow 256 bits: the source applies no upper bound to the size. -/
def hugeOrder : Order :=
  { token_id := 0, price := 1, size := 10 ^ 100, side := "BUY", maker := "0xa" }

/-- The MARKET (FOK) BUY order with price 0.43 and size 0.01 whose quote
leg rounds to zero. -/
def tinyMarketBuy : Order :=
  { token_id := 0, price := 43/100, size := 1/100, side := "BUY",
    maker := "0xa", order_type := "FOK" }

/-- Model of the `private_key[2:]`-after-`startswith("0x")` step of
`OrderSigner.__init__`, and of the prefix normalization inside
`eth_utils.to_checksum_address`. -/
def strip0x (s : String) : String :=
  match s.data with
  | '0' :: 'x' :: rest => String.mk rest
  | _ => s

/-- Hexadecimal digit test (Python's key material is hex text). -/
def isHexChar (c : Char) : Bool :=
  c.isDigit || ('a' ≤ c && c ≤ 'f') || ('A' ≤ c && c ≤ 'F')

/-- One character of EIP-55 checksumming: decimal digits are unchanged;
letters are cased according to the corresponding keccak nibble bit. -/
def checksumChar (b : Bool) (c : Char) : Char :=
  if c.isDigit then c else if b then c.toUpper else c.toLower

/-- Model of `eth_utils.to_checksum_address`: strip the 0x prefix and case
each character of the 40-character body by the keccak-derived bit stream
`hash body` (the keccak hash itself is external; it enters as the
parameter `hash`). -/
def toChecksumAddress (hash : String → ℕ → Bool) (s : String) : String :=
  "0x" ++ String.mk (((strip0x s).data.enum).map
    fun p => checksumChar (hash (strip0x s) p.1) p.2)

/-- The zero address, `taker` of every order the source signs. -/
def zeroAddress : String := "0x0000000000000000000000000000000000000000"

/-- Model of `random.randint(a, b)` (inclusive bounds): for an arbitrary
seed the value `a + seed % (b − a + 1)` ranges exactly over [a, b]. -/
def randint (a b : ℤ) (seed : ℕ) : ℤ := a + (seed : ℤ) % (b - a + 1)

/-- The signing identity: `self.address = self.wallet.address` after
construction. -/
structure OrderSigner where
  address : String

/-- The wallet object returned by the external `eth_account.Account.from_key`. -/
structure Wallet where
  address : String

/-- Model of `OrderSigner.__init__` (`src/signer.py` lines 174–192): strip an
optional 0x prefix, then derive the wallet from `"0x" + private_key` via
the external `Account.from_key`, modelled by the parameter `fromKey`
(`none` models its raised exception, re-raised as `ValueError`). -/
def initOrderSigner (fromKey : String → Option Wallet) (private_key : String) :
    Option OrderSigner :=
  match fromKey ("0x" ++ strip0x private_key) with
  | some w => some { address := w.address }
  | none => none

/-- The EIP-712 `order_message` struct assembled by `OrderSigner.sign_order`
(lines 289–302). -/
structure OrderMessage where
  salt : ℤ
  maker : String
  signer : String
  taker : String
  tokenId : ℤ
  makerAmount : ℤ
  takerAmount : ℤ
  expiration : ℤ
  nonce : ℤ
  feeRateBps : ℤ
  side : ℤ
  signatureType : ℤ

/-- Assembly of the `order_message` dict of `sign_order`: fresh small
random salt, checksummed maker/signer/zero-taker addresses, the normalized
integer amounts, expiration 0, and the numeric side code. -/
def buildOrderMessage (hash : String → ℕ → Bool) (s : OrderSigner)
    (o : NormalizedOrder) (seed : ℕ) : OrderMessage :=
  { salt := randint 1 (2 ^ 40 - 1) seed
    maker := toChecksumAddress hash o.maker
    signer := toChecksumAddress hash s.address
    taker := toChecksumAddress hash zeroAddress
    tokenId := o.token_id
    makerAmount := o.maker_amount
    takerAmount := o.taker_amount
    expiration := 0
    nonce := o.nonce
    feeRateBps := o.fee_rate_bps
    side := o.side_value
    signatureType := o.signature_type }

/-- The JSON-shaped `order` object returned by `sign_order`
(lines 316–332): `uint256` values re-encoded as decimal strings, salt and
signatureType kept as integers, and `side` re-encoded as the BUY/SELL
string. -/
structure SignedOrderPayload where
  salt : ℤ
  maker : String
  signer : String
  taker : String
  tokenId : String
  makerAmount : String
  takerAmount : String
  expiration : String
  nonce : String
  feeRateBps : String
  side : String
  signatureType : ℤ
  signature : String

/-- Output shaping of `sign_order`: each `uint256` field of the message is
rendered with `str(...)`, salt and signatureType stay integers, `side`
takes the order's side string, and the hex signature (external ECDSA,
parameter `sig`) is attached. -/
def buildPayload (m : OrderMessage) (sideStr : String) (sig : String) :
    SignedOrderPayload :=
  { salt := m.salt
    maker := m.maker
    signer := m.signer
    taker := m.taker
    tokenId := toString m.tokenId
    makerAmount := toString m.makerAmount
    takerAmount := toString m.takerAmount
    expiration := toString m.expiration
    nonce := toString m.nonce
    feeRateBps := toString m.feeRateBps
    side := sideStr
    signatureType := m.signatureType
    signature := sig }

/-- Model of `OrderSigner.sign_order` on an already-normalized order: build the
typed message, sign it (externally), and shape the payload. -/
def signOrder (hash : String → ℕ → Bool) (s : OrderSigner)
    (o : NormalizedOrder) (seed : ℕ) (sig : String) : SignedOrderPayload :=
  buildPayload (buildOrderMessage hash s o seed) o.side sig

/-- The `Order` constructed by `OrderSigner.sign_order_dict`
(lines 362–370): only token id, price, size, side, maker, nonce and fee
rate are exposed; `signature_type` and `order_type` take the dataclass
defaults. -/
def dictOrder (token_id : ℤ) (price size : ℚ) (side maker : String)
    (nonce : Option ℤ) (fee_rate_bps : ℤ) : Order :=
  { token_id := token_id
    price := price
    size := size
    side := side
    maker := maker
    nonce := nonce
    fee_rate_bps := fee_rate_bps }

/-- Model of `OrderSigner.sign_order_dict`: construct the order (running
`__post_init__`) and sign it. -/
def signOrderDict (hash : String → ℕ → Bool) (s : OrderSigner)
    (token_id : ℤ) (price size : ℚ) (side maker : String)
    (nonce : Option ℤ) (fee_rate_bps : ℤ) (seed : ℕ) (sig : String) :
    Except String SignedOrderPayload :=
  (postInit (dictOrder token_id price size side maker nonce fee_rate_bps)).map
    fun r => signOrder hash s r seed sig

/-- The normalized form of `scenario1Order`. -/
def scenario1Normalized : NormalizedOrder :=
  { token_id := 17677
    price := 7/10
    size := 147/100
    side := "BUY"
    maker := "0x81E16FFAED0357FCB6514F5F59B961Bbf29152a5"
    nonce := 0
    fee_rate_bps := 0
    signature_type := 2
    order_type := "GTC"
    maker_amount := 1029000
    taker_amount := 1470000
    side_value := 0 }

/-! ## Theorems: rounding facts, helper lemmas, and the claims -/


theorem rhe_floor_or_succ (x : ℚ) : rhe x = ⌊x⌋ ∨ rhe x = ⌊x⌋ + 1 := by
  unfold rhe
  split_ifs <;> simp

theorem abs_rhe_sub (x : ℚ) : |(rhe x : ℚ) - x| ≤ 1/2 := by
  have h0 : (0:ℚ) ≤ Int.fract x := Int.fract_nonneg x
  have h1 : Int.fract x < 1 := Int.fract_lt_one x
  have hf : ((⌊x⌋ : ℤ) : ℚ) = x - Int.fract x := by
    unfold Int.fract
    ring
  unfold rhe
  split_ifs with hlt hgt heven
  · rw [abs_le]
    constructor <;> · rw [hf]; linarith
  · rw [abs_le]
    push_cast
    constructor <;> · rw [hf]; linarith
  · have heq : Int.fract x = 1/2 := le_antisymm (not_lt.mp hgt) (not_lt.mp hlt)
    rw [abs_le]
    constructor <;> · rw [hf, heq]; linarith
  · have heq : Int.fract x = 1/2 := le_antisymm (not_lt.mp hgt) (not_lt.mp hlt)
    rw [abs_le]
    push_cast
    constructor <;> · rw [hf, heq]; linarith

theorem rhe_le_add_half (x : ℚ) : (rhe x : ℚ) ≤ x + 1/2 := by
  have h := abs_rhe_sub x
  rw [abs_le] at h
  linarith [h.2]

theorem sub_half_le_rhe (x : ℚ) : x - 1/2 ≤ (rhe x : ℚ) := by
  have h := abs_rhe_sub x
  rw [abs_le] at h
  linarith [h.1]

theorem rhe_nonneg (x : ℚ) (hx : 0 ≤ x) : 0 ≤ rhe x := by
  have hfl : 0 ≤ ⌊x⌋ := Int.floor_nonneg.mpr hx
  rcases rhe_floor_or_succ x with h | h <;> omega

theorem rhe_intCast (n : ℤ) : rhe (n : ℚ) = n := by
  unfold rhe
  rw [Int.fract_intCast, Int.floor_intCast]
  norm_num

theorem rnd_nonneg (d : ℕ) (x : ℚ) (hx : 0 ≤ x) : 0 ≤ rnd d x := by
  unfold rnd
  have h : (0:ℚ) ≤ (rhe (x * 10 ^ d) : ℚ) := by
    exact_mod_cast rhe_nonneg _ (by positivity)
  positivity

theorem abs_rnd_sub (d : ℕ) (x : ℚ) : |rnd d x - x| ≤ 1 / (2 * 10 ^ d) := by
  have h := abs_rhe_sub (x * 10 ^ d)
  have hpow : (0:ℚ) < 10 ^ d := by positivity
  have key : rnd d x - x = ((rhe (x * 10 ^ d) : ℚ) - x * 10 ^ d) / 10 ^ d := by
    unfold rnd
    field_simp
    ring
  rw [key, abs_div, abs_of_pos hpow, div_le_div_iff₀ hpow (by positivity)]
  calc |(rhe (x * 10 ^ d) : ℚ) - x * 10 ^ d| * (2 * 10 ^ d)
      ≤ (1/2) * (2 * 10 ^ d) := by
        apply mul_le_mul_of_nonneg_right h (by positivity)
    _ = 1 * 10 ^ d := by ring

theorem rnd_le (d : ℕ) (x : ℚ) : rnd d x ≤ x + 1 / (2 * 10 ^ d) := by
  have h := abs_rnd_sub d x
  rw [abs_le] at h
  linarith [h.2]

/-- A value already rounded to `d` decimal places scales exactly to an
integer at `10^d`: the base-unit conversion step of the source loses
nothing on it. -/
theorem rnd_mul_pow_eq (d : ℕ) (x : ℚ) : rnd d x * 10 ^ d = (rhe (x * 10 ^ d) : ℚ) := by
  unfold rnd
  field_simp

theorem rhe_rnd_mul_pow (d : ℕ) (x : ℚ) : rhe (rnd d x * 10 ^ d) = rhe (x * 10 ^ d) := by
  rw [rnd_mul_pow_eq, rhe_intCast]

theorem strUpper_of_valid (s : String) (h : s = "BUY" ∨ s = "SELL") :
    strUpper s = s := by
  rcases h with h | h <;> rw [h] <;> decide

theorem postInit_ok (o : Order) (hside : o.side = "BUY" ∨ o.side = "SELL")
    (hp : 0 < o.price) (hp1 : o.price ≤ 1) (hsz : 0 < o.size) :
    postInit o = .ok
      { token_id := o.token_id
        price := rnd 2 o.price
        size := o.size
        side := o.side
        maker := o.maker
        nonce := o.nonce.getD 0
        fee_rate_bps := o.fee_rate_bps
        signature_type := o.signature_type
        order_type := o.order_type
        maker_amount := (computeAmounts o.order_type o.side (rnd 2 o.price) o.size).1
        taker_amount := (computeAmounts o.order_type o.side (rnd 2 o.price) o.size).2
        side_value := if o.side = "BUY" then 0 else 1 } := by
  unfold postInit
  rw [strUpper_of_valid o.side hside]
  rw [if_neg (by simp only [not_not]; exact hside),
      if_neg (by simp only [not_not]; exact ⟨hp, hp1⟩),
      if_neg (not_le.mpr hsz)]

/-- C1: for every valid input (side BUY/SELL, order type GTC/GTD/FOK/FAK,
price in (0,1], size > 0), `Order.__post_init__` follows the reference
algorithm of §4.1 exactly: tick-round the price, round shares to the row's
shares ceiling, derive the quote from the already-rounded shares and round
it to the row's quote ceiling, convert each leg as
round(value·10^d)·10^(6−d), assign maker/taker per side, and set side code
0 for BUY and 1 for SELL. -/
theorem postInit_follows_reference_algorithm (o : Order)
    (hside : o.side = "BUY" ∨ o.side = "SELL")
    (hot : o.order_type = "GTC" ∨ o.order_type = "GTD" ∨
           o.order_type = "FOK" ∨ o.order_type = "FAK")
    (hp : 0 < o.price) (hp1 : o.price ≤ 1) (hsz : 0 < o.size) :
    ∃ r, postInit o = .ok r ∧
      (r.maker_amount, r.taker_amount, r.side_value) =
        specAmounts o.order_type o.side o.price o.size := by
  refine ⟨_, postInit_ok o hside hp hp1 hsz, ?_⟩
  by_cases hm : o.order_type = "FOK" ∨ o.order_type = "FAK" <;>
    rcases hside with h | h <;>
      simp [computeAmounts, specAmounts, h, hm]

/-- Closed witness for C1 at a LIMIT (GTC) BUY with price 0.70 and
size 1.47. -/
theorem postInit_follows_reference_algorithm_witness :
    ∃ r, postInit { token_id := 5, price := 7/10, size := 147/100,
                    side := "BUY", maker := "0xabc" } = .ok r ∧
      (r.maker_amount, r.taker_amount, r.side_value) =
        specAmounts "GTC" "BUY" (7/10) (147/100) :=
  postInit_follows_reference_algorithm
    { token_id := 5, price := 7/10, size := 147/100,
      side := "BUY", maker := "0xabc" }
    (Or.inl rfl) (Or.inl rfl) (by norm_num) (by norm_num) (by norm_num)

/-- C2: each returned base-unit amount has its low 6−d base-unit digits
equal to zero, where d is the leg's decimal ceiling: LIMIT BUY maker
(quote, d=4) is divisible by 10², taker (shares, d=2) by 10⁴; MARKET BUY
maker by 10⁴ and taker by 10²; every SELL maker (shares) by 10⁴ and taker
(quote) by 10². -/
theorem normalized_amounts_zero_low_digits (o : Order)
    (hside : o.side = "BUY" ∨ o.side = "SELL")
    (hp : 0 < o.price) (hp1 : o.price ≤ 1) (hsz : 0 < o.size) :
    ∃ r, postInit o = .ok r ∧
      ((o.side = "BUY" ∧ ¬(o.order_type = "FOK" ∨ o.order_type = "FAK")) →
        (10 ^ 2 : ℤ) ∣ r.maker_amount ∧ (10 ^ 4 : ℤ) ∣ r.taker_amount) ∧
      ((o.side = "BUY" ∧ (o.order_type = "FOK" ∨ o.order_type = "FAK")) →
        (10 ^ 4 : ℤ) ∣ r.maker_amount ∧ (10 ^ 2 : ℤ) ∣ r.taker_amount) ∧
      (o.side = "SELL" →
        (10 ^ 4 : ℤ) ∣ r.maker_amount ∧ (10 ^ 2 : ℤ) ∣ r.taker_amount) := by
  refine ⟨_, postInit_ok o hside hp hp1 hsz, ?_, ?_, ?_⟩ <;>
    rintro h <;>
      [rcases h with ⟨hb, hm⟩; rcases h with ⟨hb, hm⟩; skip]
  · simp only [computeAmounts, hb, if_pos rfl, if_neg hm]
    exact ⟨dvd_mul_left _ _, dvd_mul_left _ _⟩
  · simp only [computeAmounts, hb, if_pos rfl, if_pos hm]
    exact ⟨dvd_mul_left _ _, dvd_mul_left _ _⟩
  · have hb : o.side ≠ "BUY" := by rw [h]; decide
    simp only [computeAmounts, if_neg hb]
    exact ⟨dvd_mul_left _ _, dvd_mul_left _ _⟩

/-- Closed witness for C2 at a MARKET (FOK) SELL with price 0.11 and
size 5.5556. -/
theorem normalized_amounts_zero_low_digits_witness :
    ∃ r, postInit { token_id := 9, price := 11/100, size := 55556/10000,
                    side := "SELL", maker := "0xdef", order_type := "FOK" } = .ok r ∧
      ((("SELL" : String) = "BUY" ∧ ¬(("FOK" : String) = "FOK" ∨ ("FOK" : String) = "FAK")) →
        (10 ^ 2 : ℤ) ∣ r.maker_amount ∧ (10 ^ 4 : ℤ) ∣ r.taker_amount) ∧
      ((("SELL" : String) = "BUY" ∧ (("FOK" : String) = "FOK" ∨ ("FOK" : String) = "FAK")) →
        (10 ^ 4 : ℤ) ∣ r.maker_amount ∧ (10 ^ 2 : ℤ) ∣ r.taker_amount) ∧
      (("SELL" : String) = "SELL" →
        (10 ^ 4 : ℤ) ∣ r.maker_amount ∧ (10 ^ 2 : ℤ) ∣ r.taker_amount) :=
  normalized_amounts_zero_low_digits
    { token_id := 9, price := 11/100, size := 55556/10000,
      side := "SELL", maker := "0xdef", order_type := "FOK" }
    (Or.inr rfl) (by norm_num) (by norm_num) (by norm_num)

theorem scenario1_amounts : normAmounts scenario1Order = some (1029000, 1470000, 0) := by
  rw [normAmounts,
      postInit_ok scenario1Order (Or.inl rfl) (by norm_num [scenario1Order])
        (by norm_num [scenario1Order]) (by norm_num [scenario1Order])]
  show some _ = _
  norm_num [scenario1Order, computeAmounts, rnd, rhe, Int.fract,
    if_neg (by decide : ¬(("GTC" : String) = "FOK" ∨ ("GTC" : String) = "FAK"))]

/-- C5 counterexample: for the LIMIT (GTC) BUY with price 0.70 and
size 1.47, the maker amount is 1029000 base units (1.029 USDC scaled by
10⁶), not the 10290000 the claim states. -/
theorem scenario1_maker_amount_refutes_claim :
    normAmounts scenario1Order = some (1029000, 1470000, 0) ∧
      (1029000 : ℤ) ≠ 10290000 :=
  ⟨scenario1_amounts, by norm_num⟩

/-- C5 amended: for the LIMIT (GTC) BUY with price 0.70 and size 1.47,
shares round to 1.47, quote = round(1.47 × 0.70, 4) = 1.029, and the
normalized amounts are maker_amount = 1029000 and taker_amount = 1470000
base units, with side code 0. -/
theorem scenario1_amounts_correct :
    normAmounts scenario1Order = some (1029000, 1470000, 0) :=
  scenario1_amounts

/-- C8: amount normalization is deterministic — any two orders agreeing on
(order_type, side, price, size) produce identical maker_amount,
taker_amount and side code, whatever their other fields (token id, maker
address, nonce, fee, signature type) are; no randomness enters the amount
computation. -/
theorem normalization_deterministic (o1 o2 : Order)
    (hot : o1.order_type = o2.order_type) (hside : o1.side = o2.side)
    (hp : o1.price = o2.price) (hsz : o1.size = o2.size) :
    normAmounts o1 = normAmounts o2 := by
  simp only [normAmounts, postInit]
  rw [hot, hside, hp, hsz]
  split_ifs <;> simp [Except.toOption]

/-- Closed witness for C8: two orders equal on the four amount-relevant
fields but different in token id, maker address and nonce normalize to the
same amounts. -/
theorem normalization_deterministic_witness :
    normAmounts { token_id := 1, price := 1/2, size := 3, side := "BUY",
                  maker := "0xaaa" } =
    normAmounts { token_id := 2, price := 1/2, size := 3, side := "BUY",
                  maker := "0xbbb", nonce := some 7, fee_rate_bps := 100 } :=
  normalization_deterministic _ _ rfl rfl rfl rfl

theorem baseUnit_bound (v : ℚ) (a : ℕ) (ha : a ≤ 6) (hv : 0 ≤ v)
    (hub : v ≤ 4 * 10 ^ 70) :
    0 ≤ rhe (v * 10 ^ a) * 10 ^ (6 - a) ∧
      rhe (v * 10 ^ a) * 10 ^ (6 - a) < 2 ^ 256 := by
  have h1 : 0 ≤ rhe (v * 10 ^ a) := rhe_nonneg _ (by positivity)
  refine ⟨mul_nonneg h1 (by positivity), ?_⟩
  have h2 : (rhe (v * 10 ^ a) : ℚ) ≤ v * 10 ^ a + 1/2 := rhe_le_add_half _
  have hsplit : (10 : ℚ) ^ a * 10 ^ (6 - a) = 10 ^ 6 := by
    rw [← pow_add]
    congr 1
    omega
  have hpq : ((rhe (v * 10 ^ a) * 10 ^ (6 - a) : ℤ) : ℚ) < 2 ^ 256 := by
    push_cast
    have hstep : (rhe (v * 10 ^ a) : ℚ) * 10 ^ (6 - a) ≤
        (v * 10 ^ a + 1/2) * 10 ^ (6 - a) :=
      mul_le_mul_of_nonneg_right h2 (by positivity)
    have hexp : (v * 10 ^ a + 1/2) * 10 ^ (6 - a) =
        v * 10 ^ 6 + 10 ^ (6 - a) / 2 := by
      rw [add_mul, mul_assoc, hsplit]
      ring
    have hpow6 : (10 : ℚ) ^ (6 - a) ≤ 10 ^ 6 :=
      pow_le_pow_right₀ (by norm_num) (by omega)
    have hfin : v * 10 ^ 6 + 10 ^ (6 - a) / 2 < 2 ^ 256 := by
      have : v * 10 ^ 6 ≤ 4 * 10 ^ 76 := by
        calc v * 10 ^ 6 ≤ (4 * 10 ^ 70) * 10 ^ 6 :=
              mul_le_mul_of_nonneg_right hub (by positivity)
          _ = 4 * 10 ^ 76 := by norm_num
      nlinarith
    linarith [hstep, hexp ▸ hstep]
  exact_mod_cast hpq

theorem computeAmounts_bounds (ot side : String) (p sz : ℚ)
    (hp0 : 0 ≤ p) (hp2 : p ≤ 2) (hsz0 : 0 ≤ sz) (hub : sz ≤ 10 ^ 70) :
    0 ≤ (computeAmounts ot side p sz).1 ∧
      (computeAmounts ot side p sz).1 < 2 ^ 256 ∧
      0 ≤ (computeAmounts ot side p sz).2 ∧
      (computeAmounts ot side p sz).2 < 2 ^ 256 := by
  have hsh : ∀ d : ℕ, 0 ≤ rnd d sz ∧ rnd d sz ≤ 10 ^ 70 + 1 := by
    intro d
    refine ⟨rnd_nonneg d sz hsz0, le_trans (rnd_le d sz) ?_⟩
    have hd : (1 : ℚ) ≤ 10 ^ d := one_le_pow₀ (by norm_num)
    have : 1 / (2 * 10 ^ d : ℚ) ≤ 1 := by
      rw [div_le_one (by positivity)]
      linarith
    linarith
  have hq : ∀ (d : ℕ) (x : ℚ), 0 ≤ x → x ≤ 2 * (10 ^ 70 + 1) →
      0 ≤ rnd d x ∧ rnd d x ≤ 4 * 10 ^ 70 := by
    intro d x hx0 hx2
    refine ⟨rnd_nonneg d x hx0, le_trans (rnd_le d x) ?_⟩
    have hd : (1 : ℚ) ≤ 10 ^ d := one_le_pow₀ (by norm_num)
    have h1 : 1 / (2 * 10 ^ d : ℚ) ≤ 1 := by
      rw [div_le_one (by positivity)]
      linarith
    nlinarith
  have hmul : ∀ d : ℕ, 0 ≤ rnd d sz * p ∧ rnd d sz * p ≤ 2 * (10 ^ 70 + 1) := by
    intro d
    constructor
    · exact mul_nonneg (hsh d).1 hp0
    · calc rnd d sz * p ≤ (10 ^ 70 + 1) * 2 :=
          mul_le_mul (hsh d).2 hp2 hp0 (by positivity)
        _ = 2 * (10 ^ 70 + 1) := by ring
  have hshb : ∀ d : ℕ, rnd d sz ≤ 4 * 10 ^ 70 := by
    intro d
    have := (hsh d).2
    nlinarith
  unfold computeAmounts
  split_ifs with h1 h2
  · -- market BUY
    have hqb := hq 2 (rnd 4 sz * p) (hmul 4).1 (hmul 4).2
    have ha := baseUnit_bound (rnd 2 (rnd 4 sz * p)) 2 (by omega) hqb.1 hqb.2
    have hb := baseUnit_bound (rnd 4 sz) 4 (by omega) (hsh 4).1 (hshb 4)
    exact ⟨ha.1, ha.2, hb.1, hb.2⟩
  · -- limit BUY
    have hqb := hq 4 (rnd 2 sz * p) (hmul 2).1 (hmul 2).2
    have ha := baseUnit_bound (rnd 4 (rnd 2 sz * p)) 4 (by omega) hqb.1 hqb.2
    have hb := baseUnit_bound (rnd 2 sz) 2 (by omega) (hsh 2).1 (hshb 2)
    exact ⟨ha.1, ha.2, hb.1, hb.2⟩
  · -- SELL
    have hqb := hq 4 (rnd 2 sz * p) (hmul 2).1 (hmul 2).2
    have ha := baseUnit_bound (rnd 2 sz) 2 (by omega) (hsh 2).1 (hshb 2)
    have hb := baseUnit_bound (rnd 4 (rnd 2 sz * p)) 4 (by omega) hqb.1 hqb.2
    exact ⟨ha.1, ha.2, hb.1, hb.2⟩

/-- C3 counterexample: at the valid input price = 1, size = 10¹⁰⁰ (price in
(0,1], size > 0), normalization succeeds and returns amounts of 10¹⁰⁶ base
units, which are not representable in 256 bits — the claim's range
guarantee fails without a bound on the size. -/
theorem normalized_amount_can_exceed_uint256 :
    normAmounts hugeOrder = some (10 ^ 106, 10 ^ 106, 0) ∧
      ¬ (10 ^ 106 : ℤ) < 2 ^ 256 := by
  constructor
  · rw [normAmounts,
        postInit_ok hugeOrder (Or.inl rfl) (by norm_num [hugeOrder])
          (by norm_num [hugeOrder]) (by norm_num [hugeOrder])]
    show some _ = _
    norm_num [hugeOrder, computeAmounts, rnd, rhe, Int.fract,
      if_neg (by decide : ¬(("GTC" : String) = "FOK" ∨ ("GTC" : String) = "FAK"))]
  · norm_num

/-- C3 amended: with side in BUY/SELL, normalization succeeds exactly on
price in (0,1] and size > 0, rejecting out-of-domain price or size with an
error (no clamping); and whenever additionally size ≤ 10⁷⁰ both returned
amounts are non-negative and below 2²⁵⁶. -/
theorem normalize_domain_and_range (o : Order)
    (hside : o.side = "BUY" ∨ o.side = "SELL") :
    (0 < o.price → o.price ≤ 1 → 0 < o.size → o.size ≤ 10 ^ 70 →
      ∃ r, postInit o = .ok r ∧
        0 ≤ r.maker_amount ∧ r.maker_amount < 2 ^ 256 ∧
        0 ≤ r.taker_amount ∧ r.taker_amount < 2 ^ 256) ∧
    (¬ (0 < o.price ∧ o.price ≤ 1) ∨ o.size ≤ 0 →
      ∃ msg, postInit o = .error msg) := by
  constructor
  · intro hp hp1 hsz hub
    refine ⟨_, postInit_ok o hside hp hp1 hsz, ?_⟩
    have hp0 : 0 ≤ rnd 2 o.price := rnd_nonneg 2 o.price (le_of_lt hp)
    have hp2 : rnd 2 o.price ≤ 2 := by
      have := rnd_le 2 o.price
      have hpos : (0:ℚ) < 2 * 10 ^ 2 := by norm_num
      have : rnd 2 o.price ≤ o.price + 1 / (2 * 10 ^ 2) := this
      have hsmall : (1 : ℚ) / (2 * 10 ^ 2) ≤ 1 := by norm_num
      linarith
    have h := computeAmounts_bounds o.order_type o.side (rnd 2 o.price) o.size
      hp0 hp2 (le_of_lt hsz) hub
    exact ⟨h.1, h.2.1, h.2.2.1, h.2.2.2⟩
  · intro h
    unfold postInit
    rw [strUpper_of_valid o.side hside,
        if_neg (by simp only [not_not]; exact hside)]
    by_cases hpp : 0 < o.price ∧ o.price ≤ 1
    · have hsz : o.size ≤ 0 := by tauto
      rw [if_neg (not_not.mpr hpp), if_pos hsz]
      exact ⟨_, rfl⟩
    · rw [if_pos hpp]
      exact ⟨_, rfl⟩

/-- Closed witness for C3 at the valid LIMIT BUY input price 0.5,
size 3. -/
theorem normalize_domain_and_range_witness :
    ∃ r, postInit { token_id := 3, price := 1/2, size := 3, side := "BUY",
                    maker := "0xw" } = .ok r ∧
      0 ≤ r.maker_amount ∧ r.maker_amount < 2 ^ 256 ∧
      0 ≤ r.taker_amount ∧ r.taker_amount < 2 ^ 256 :=
  (normalize_domain_and_range
    { token_id := 3, price := 1/2, size := 3, side := "BUY", maker := "0xw" }
    (Or.inl rfl)).1 (by norm_num) (by norm_num) (by norm_num) (by norm_num)

/-- A positive value rounded to `d` decimals is at least one unit of the
`d`-th decimal place. -/
theorem rnd_pos_ge (d : ℕ) (x : ℚ) (h : 0 < rnd d x) : 1 / 10 ^ d ≤ rnd d x := by
  unfold rnd at h ⊢
  have hpow : (0:ℚ) < 10 ^ d := by positivity
  have hn : 0 < rhe (x * 10 ^ d) := by
    by_contra hc
    push_neg at hc
    have : ((rhe (x * 10 ^ d) : ℤ) : ℚ) ≤ 0 := by exact_mod_cast hc
    have := div_nonpos_of_nonpos_of_nonneg this (le_of_lt hpow)
    linarith
  have h1 : (1 : ℤ) ≤ rhe (x * 10 ^ d) := hn
  have h1q : (1 : ℚ) ≤ (rhe (x * 10 ^ d) : ℚ) := by exact_mod_cast h1
  gcongr

/-- Core two-stage-rounding estimate: with shares `S = rnd ds sz` and
quote `Q = rnd dq (S·p)`, the base-unit legs are exactly `Q·10⁶` and
`S·10⁶`, and their ratio stays within one tick of `p` as soon as
`S ≥ 50/10^dq`. -/
theorem implied_price_core (ds dq : ℕ) (hds : ds ≤ 6) (hdq : dq ≤ 6)
    (p sz : ℚ)
    (hsh : 50 / 10 ^ dq ≤ rnd ds sz) :
    |(((rhe (rnd dq (rnd ds sz * p) * 10 ^ dq) * 10 ^ (6 - dq) : ℤ)) : ℚ) /
       ((rhe (rnd ds sz * 10 ^ ds) * 10 ^ (6 - ds) : ℤ) : ℚ) - p| ≤ 1/100 := by
  set S := rnd ds sz with hS
  set Q := rnd dq (S * p) with hQ
  have hpowq : (0:ℚ) < 10 ^ dq := by positivity
  have hpows : (0:ℚ) < 10 ^ ds := by positivity
  have hSpos : 0 < S := lt_of_lt_of_le (by positivity) hsh
  have hsplitq : (10 : ℚ) ^ dq * 10 ^ (6 - dq) = 10 ^ 6 := by
    rw [← pow_add]
    congr 1
    omega
  have hsplits : (10 : ℚ) ^ ds * 10 ^ (6 - ds) = 10 ^ 6 := by
    rw [← pow_add]
    congr 1
    omega
  have hM : ((rhe (Q * 10 ^ dq) * 10 ^ (6 - dq) : ℤ) : ℚ) = Q * 10 ^ 6 := by
    push_cast
    rw [rhe_rnd_mul_pow, ← rnd_mul_pow_eq, ← hQ, mul_assoc, hsplitq]
  have hT : ((rhe (S * 10 ^ ds) * 10 ^ (6 - ds) : ℤ) : ℚ) = S * 10 ^ 6 := by
    push_cast
    rw [hS, rhe_rnd_mul_pow, ← rnd_mul_pow_eq, ← hS, mul_assoc, hsplits]
  rw [hM, hT]
  have hS6 : S * 10 ^ 6 ≠ 0 := by positivity
  have hratio : Q * 10 ^ 6 / (S * 10 ^ 6) = Q / S := by
    rw [mul_div_mul_right _ _ (by norm_num : (10:ℚ) ^ 6 ≠ 0)]
  rw [hratio]
  have hdiff : Q / S - p = (Q - S * p) / S := by
    field_simp
  rw [hdiff, abs_div, abs_of_pos hSpos]
  have habs : |Q - S * p| ≤ 1 / (2 * 10 ^ dq) := abs_rnd_sub dq (S * p)
  rw [div_le_div_iff₀ hSpos (by norm_num : (0:ℚ) < 100)]
  calc |Q - S * p| * 100 ≤ (1 / (2 * 10 ^ dq)) * 100 := by
        apply mul_le_mul_of_nonneg_right habs (by norm_num)
    _ = 50 / 10 ^ dq := by ring
    _ ≤ S := hsh
    _ = 1 * S := (one_mul S).symm

/-- C4 counterexample: for the valid MARKET (FOK) BUY with price 0.43 and
size 0.01, the normalized amounts are maker 0 and taker 10000, so the
implied price maker/taker is 0, which is 0.43 away from the tick-rounded
price — far beyond one unit of the coarser (2-decimal) ceiling. -/
theorem implied_price_off_tick_counterexample :
    normAmounts tinyMarketBuy = some (0, 10000, 0) ∧
      ¬ |(0 : ℚ) / (10000 : ℚ) - rnd 2 (43/100)| ≤ 1/100 := by
  constructor
  · rw [normAmounts,
        postInit_ok tinyMarketBuy (Or.inl rfl) (by norm_num [tinyMarketBuy])
          (by norm_num [tinyMarketBuy]) (by norm_num [tinyMarketBuy])]
    show some _ = _
    norm_num [tinyMarketBuy, computeAmounts, rnd, rhe, Int.fract,
      if_pos (Or.inl rfl : ("FOK" : String) = "FOK" ∨ ("FOK" : String) = "FAK")]
  · norm_num [rnd, rhe, Int.fract]
    rw [abs_of_nonneg (by norm_num : (0:ℚ) ≤ 43/100)]
    norm_num

/-- C4 amended: for every valid input whose rounded shares are positive
(LIMIT BUY and SELL rows) respectively at least 0.5 (MARKET BUY row), the
ratio of the two normalized base-unit amounts (maker/taker for BUY,
taker/maker for SELL) reproduces the tick-rounded price to within one tick
(0.01). -/
theorem implied_price_within_tick (o : Order)
    (hside : o.side = "BUY" ∨ o.side = "SELL")
    (hp : 0 < o.price) (hp1 : o.price ≤ 1) (hsz : 0 < o.size)
    (hmkt : o.side = "BUY" → (o.order_type = "FOK" ∨ o.order_type = "FAK") →
      1/2 ≤ rnd 4 o.size)
    (hlim : 0 < rnd 2 o.size) :
    ∃ r, postInit o = .ok r ∧
      (o.side = "BUY" →
        |(r.maker_amount : ℚ) / (r.taker_amount : ℚ) - rnd 2 o.price| ≤ 1/100) ∧
      (o.side = "SELL" →
        |(r.taker_amount : ℚ) / (r.maker_amount : ℚ) - rnd 2 o.price| ≤ 1/100) := by
  refine ⟨_, postInit_ok o hside hp hp1 hsz, ?_, ?_⟩
  · intro hb
    by_cases hm : o.order_type = "FOK" ∨ o.order_type = "FAK"
    · simp only [computeAmounts, if_pos hb, if_pos hm]
      exact implied_price_core 4 2 (by omega) (by omega) (rnd 2 o.price) o.size
        (by norm_num [hmkt hb hm])
    · simp only [computeAmounts, if_pos hb, if_neg hm]
      have h1 : 1/100 ≤ rnd 2 o.size := by
        have := rnd_pos_ge 2 o.size hlim
        norm_num at this ⊢
        exact this
      exact implied_price_core 2 4 (by omega) (by omega) (rnd 2 o.price) o.size
        (by norm_num; linarith)
  · intro hs
    have hb : ¬ o.side = "BUY" := by rw [hs]; decide
    simp only [computeAmounts, if_neg hb]
    have h1 : 1/100 ≤ rnd 2 o.size := by
      have := rnd_pos_ge 2 o.size hlim
      norm_num at this ⊢
      exact this
    exact implied_price_core 2 4 (by omega) (by omega) (rnd 2 o.price) o.size
      (by norm_num; linarith)

/-- Closed witness for C4 at the LIMIT (GTC) BUY with price 0.70 and
size 1.47. -/
theorem implied_price_within_tick_witness :
    ∃ r, postInit { token_id := 8, price := 7/10, size := 147/100,
                    side := "BUY", maker := "0xb" } = .ok r ∧
      (("BUY" : String) = "BUY" →
        |(r.maker_amount : ℚ) / (r.taker_amount : ℚ) - rnd 2 (7/10)| ≤ 1/100) ∧
      (("BUY" : String) = "SELL" →
        |(r.taker_amount : ℚ) / (r.maker_amount : ℚ) - rnd 2 (7/10)| ≤ 1/100) :=
  implied_price_within_tick
    { token_id := 8, price := 7/10, size := 147/100, side := "BUY", maker := "0xb" }
    (Or.inl rfl) (by norm_num) (by norm_num) (by norm_num)
    (fun _ h => by cases h with
      | inl h => exact absurd h (by decide)
      | inr h => exact absurd h (by decide))
    (by norm_num [rnd, rhe, Int.fract])

theorem map_checksum_digits (f : ℕ → Bool) (l : List (ℕ × Char))
    (h : ∀ p ∈ l, (p.2).isDigit) :
    l.map (fun p => checksumChar (f p.1) p.2) = l.map Prod.snd := by
  induction l with
  | nil => rfl
  | cons a t ih =>
    simp only [List.map_cons]
    rw [ih (fun p hp => h p (List.mem_cons_of_mem a hp))]
    have ha := h a (List.mem_cons_self a t)
    simp [checksumChar, ha]

theorem toChecksumAddress_zero (hash : String → ℕ → Bool) :
    toChecksumAddress hash zeroAddress = zeroAddress := by
  have hstrip : strip0x zeroAddress = String.mk (List.replicate 40 '0') := by decide
  unfold toChecksumAddress
  rw [hstrip]
  have hdig : ∀ p ∈ (String.mk (List.replicate 40 '0')).data.enum, (p.2).isDigit := by
    decide
  rw [map_checksum_digits _ _ hdig]
  show "0x" ++ String.mk ((List.replicate 40 '0').enum.map Prod.snd) = zeroAddress
  rw [List.enum_map_snd]
  decide

/-- C6: for every keccak bit stream, signing identity, normalized order and
RNG seed, the signed order struct has taker = the zero address,
expiration = 0, signer = the (checksummed) address of the signing identity
(the address the constructor derived from the private key, independent of
the maker address), and a salt in [1, 2⁴⁰−1]. -/
theorem sign_order_fixed_fields (hash : String → ℕ → Bool) (s : OrderSigner)
    (o : NormalizedOrder) (seed : ℕ) :
    (buildOrderMessage hash s o seed).taker = zeroAddress ∧
    (buildOrderMessage hash s o seed).expiration = 0 ∧
    (buildOrderMessage hash s o seed).signer = toChecksumAddress hash s.address ∧
    1 ≤ (buildOrderMessage hash s o seed).salt ∧
    (buildOrderMessage hash s o seed).salt ≤ 2 ^ 40 - 1 := by
  refine ⟨toChecksumAddress_zero hash, rfl, rfl, ?_, ?_⟩
  · show 1 ≤ randint 1 (2 ^ 40 - 1) seed
    unfold randint
    have h := Int.emod_nonneg (seed : ℤ)
      (by norm_num : ((2:ℤ) ^ 40 - 1 - 1 + 1) ≠ 0)
    omega
  · show randint 1 (2 ^ 40 - 1) seed ≤ 2 ^ 40 - 1
    unfold randint
    have h := Int.emod_lt_of_pos (seed : ℤ)
      (by norm_num : (0:ℤ) < 2 ^ 40 - 1 - 1 + 1)
    omega

/-- A successful `__post_init__` leaves a side that is exactly "BUY" or
"SELL", with the matching numeric side code. -/
theorem postInit_ok_side (ord : Order) (r : NormalizedOrder)
    (h : postInit ord = .ok r) :
    (r.side = "BUY" ∨ r.side = "SELL") ∧
      r.side_value = (if r.side = "BUY" then 0 else 1) := by
  simp only [postInit] at h
  by_cases hv : strUpper ord.side = "BUY" ∨ strUpper ord.side = "SELL"
  · rw [if_neg (not_not.mpr hv)] at h
    by_cases hp : 0 < ord.price ∧ ord.price ≤ 1
    · rw [if_neg (not_not.mpr hp)] at h
      by_cases hsz : ord.size ≤ 0
      · rw [if_pos hsz] at h
        exact absurd h (by simp)
      · rw [if_neg hsz, Except.ok.injEq] at h
        subst h
        exact ⟨hv, rfl⟩
    · rw [if_pos hp] at h
      exact absurd h (by simp)
  · rw [if_pos hv] at h
    exact absurd h (by simp)

/-- C7: in the payload `sign_order` returns, the uint256 fields tokenId,
makerAmount, takerAmount, expiration, nonce and feeRateBps are the decimal
renderings of the signed struct's integers, salt and signatureType stay
plain integers, and side is the "BUY"/"SELL" string — while the signed
struct carried the numeric side code 0/1. -/
theorem signed_payload_encoding (hash : String → ℕ → Bool) (s : OrderSigner)
    (ord : Order) (r : NormalizedOrder) (seed : ℕ) (sig : String)
    (h : postInit ord = .ok r) :
    (signOrder hash s r seed sig).tokenId =
      toString (buildOrderMessage hash s r seed).tokenId ∧
    (signOrder hash s r seed sig).makerAmount =
      toString (buildOrderMessage hash s r seed).makerAmount ∧
    (signOrder hash s r seed sig).takerAmount =
      toString (buildOrderMessage hash s r seed).takerAmount ∧
    (signOrder hash s r seed sig).expiration =
      toString (buildOrderMessage hash s r seed).expiration ∧
    (signOrder hash s r seed sig).nonce =
      toString (buildOrderMessage hash s r seed).nonce ∧
    (signOrder hash s r seed sig).feeRateBps =
      toString (buildOrderMessage hash s r seed).feeRateBps ∧
    (signOrder hash s r seed sig).salt = (buildOrderMessage hash s r seed).salt ∧
    (signOrder hash s r seed sig).signatureType =
      (buildOrderMessage hash s r seed).signatureType ∧
    (signOrder hash s r seed sig).side = r.side ∧
    (r.side = "BUY" ∨ r.side = "SELL") ∧
    (buildOrderMessage hash s r seed).side =
      (if r.side = "BUY" then 0 else 1) := by
  have hside := postInit_ok_side ord r h
  exact ⟨rfl, rfl, rfl, rfl, rfl, rfl, rfl, rfl, rfl, hside.1, hside.2⟩

theorem scenario1_postInit : postInit scenario1Order = .ok scenario1Normalized := by
  rw [postInit_ok scenario1Order (Or.inl rfl) (by norm_num [scenario1Order])
      (by norm_num [scenario1Order]) (by norm_num [scenario1Order]),
    Except.ok.injEq]
  norm_num [scenario1Order, scenario1Normalized, computeAmounts, rnd, rhe, Int.fract,
    if_neg (by decide : ¬(("GTC" : String) = "FOK" ∨ ("GTC" : String) = "FAK"))]

/-- Closed witness for C7 on the normalized scenario-1 order with a
concrete bit stream, signer, seed and signature. -/
theorem signed_payload_encoding_witness :
    (signOrder (fun _ _ => false) { address := "0xS" } scenario1Normalized 0 "0xsig").tokenId =
      toString (buildOrderMessage (fun _ _ => false) { address := "0xS" } scenario1Normalized 0).tokenId ∧
    (signOrder (fun _ _ => false) { address := "0xS" } scenario1Normalized 0 "0xsig").makerAmount =
      toString (buildOrderMessage (fun _ _ => false) { address := "0xS" } scenario1Normalized 0).makerAmount ∧
    (signOrder (fun _ _ => false) { address := "0xS" } scenario1Normalized 0 "0xsig").takerAmount =
      toString (buildOrderMessage (fun _ _ => false) { address := "0xS" } scenario1Normalized 0).takerAmount ∧
    (signOrder (fun _ _ => false) { address := "0xS" } scenario1Normalized 0 "0xsig").expiration =
      toString (buildOrderMessage (fun _ _ => false) { address := "0xS" } scenario1Normalized 0).expiration ∧
    (signOrder (fun _ _ => false) { address := "0xS" } scenario1Normalized 0 "0xsig").nonce =
      toString (buildOrderMessage (fun _ _ => false) { address := "0xS" } scenario1Normalized 0).nonce ∧
    (signOrder (fun _ _ => false) { address := "0xS" } scenario1Normalized 0 "0xsig").feeRateBps =
      toString (buildOrderMessage (fun _ _ => false) { address := "0xS" } scenario1Normalized 0).feeRateBps ∧
    (signOrder (fun _ _ => false) { address := "0xS" } scenario1Normalized 0 "0xsig").salt =
      (buildOrderMessage (fun _ _ => false) { address := "0xS" } scenario1Normalized 0).salt ∧
    (signOrder (fun _ _ => false) { address := "0xS" } scenario1Normalized 0 "0xsig").signatureType =
      (buildOrderMessage (fun _ _ => false) { address := "0xS" } scenario1Normalized 0).signatureType ∧
    (signOrder (fun _ _ => false) { address := "0xS" } scenario1Normalized 0 "0xsig").side =
      scenario1Normalized.side ∧
    (scenario1Normalized.side = "BUY" ∨ scenario1Normalized.side = "SELL") ∧
    (buildOrderMessage (fun _ _ => false) { address := "0xS" } scenario1Normalized 0).side =
      (if scenario1Normalized.side = "BUY" then 0 else 1) :=
  signed_payload_encoding (fun _ _ => false) { address := "0xS" }
    scenario1Order scenario1Normalized 0 "0xsig" scenario1_postInit

/-- C9: every order signed through `sign_order_dict` carries order type
"GTC" and signature type 2 (the dataclass defaults — the entry point
exposes neither), so the MARKET (FOK/FAK) precision rules are unreachable
through it: its normalized amounts are always the LIMIT-row ones (shares
at 2 decimals, quote at 4) for the given side, price and size. -/
theorem sign_order_dict_always_limit (token_id : ℤ) (price size : ℚ)
    (side maker : String) (nonce : Option ℤ) (fee : ℤ)
    (hside : side = "BUY" ∨ side = "SELL")
    (hp : 0 < price) (hp1 : price ≤ 1) (hsz : 0 < size) :
    (dictOrder token_id price size side maker nonce fee).order_type = "GTC" ∧
    (dictOrder token_id price size side maker nonce fee).signature_type = 2 ∧
    ∃ r, postInit (dictOrder token_id price size side maker nonce fee) = .ok r ∧
      (side = "BUY" →
        r.maker_amount = rhe (rnd 4 (rnd 2 size * rnd 2 price) * 10 ^ 4) * 10 ^ 2 ∧
        r.taker_amount = rhe (rnd 2 size * 10 ^ 2) * 10 ^ 4) ∧
      (side = "SELL" →
        r.maker_amount = rhe (rnd 2 size * 10 ^ 2) * 10 ^ 4 ∧
        r.taker_amount = rhe (rnd 4 (rnd 2 size * rnd 2 price) * 10 ^ 4) * 10 ^ 2) := by
  refine ⟨rfl, rfl, _,
    postInit_ok (dictOrder token_id price size side maker nonce fee) hside hp hp1 hsz,
    ?_, ?_⟩
  · intro hb
    show ((computeAmounts "GTC" side (rnd 2 price) size).1 = _ ∧
          (computeAmounts "GTC" side (rnd 2 price) size).2 = _)
    rw [computeAmounts, if_pos hb,
      if_neg (by decide : ¬(("GTC" : String) = "FOK" ∨ ("GTC" : String) = "FAK"))]
    exact ⟨rfl, rfl⟩
  · intro hs
    have hb : ¬ side = "BUY" := by rw [hs]; decide
    show ((computeAmounts "GTC" side (rnd 2 price) size).1 = _ ∧
          (computeAmounts "GTC" side (rnd 2 price) size).2 = _)
    rw [computeAmounts, if_neg hb]
    exact ⟨rfl, rfl⟩

/-- Closed witness for C9 at a SELL with price 0.11 and size 5.5556. -/
theorem sign_order_dict_always_limit_witness :
    (dictOrder 9 (11/100) (55556/10000) "SELL" "0xm" none 0).order_type = "GTC" ∧
    (dictOrder 9 (11/100) (55556/10000) "SELL" "0xm" none 0).signature_type = 2 ∧
    ∃ r, postInit (dictOrder 9 (11/100) (55556/10000) "SELL" "0xm" none 0) = .ok r ∧
      (("SELL" : String) = "BUY" →
        r.maker_amount = rhe (rnd 4 (rnd 2 (55556/10000) * rnd 2 (11/100)) * 10 ^ 4) * 10 ^ 2 ∧
        r.taker_amount = rhe (rnd 2 (55556/10000) * 10 ^ 2) * 10 ^ 4) ∧
      (("SELL" : String) = "SELL" →
        r.maker_amount = rhe (rnd 2 (55556/10000) * 10 ^ 2) * 10 ^ 4 ∧
        r.taker_amount = rhe (rnd 4 (rnd 2 (55556/10000) * rnd 2 (11/100)) * 10 ^ 4) * 10 ^ 2) :=
  sign_order_dict_always_limit 9 (11/100) (55556/10000) "SELL" "0xm" none 0
    (Or.inr rfl) (by norm_num) (by norm_num) (by norm_num)

/-- C10: `OrderSigner` construction is insensitive to a 0x prefix on hex
key material: for a key of hexadecimal characters, constructing from `k`
and from `"0x" ++ k` hands the same string to the external key derivation,
hence yields the same wallet/address on success and the same failure on
invalid material. -/
theorem init_prefix_insensitive (fromKey : String → Option Wallet) (k : String)
    (hhex : ∀ c ∈ k.data, isHexChar c) :
    initOrderSigner fromKey k = initOrderSigner fromKey ("0x" ++ k) := by
  have h2 : strip0x ("0x" ++ k) = k := by
    have hd : ("0x" ++ k).data = '0' :: 'x' :: k.data := by
      simp [String.data_append]
    unfold strip0x
    rw [hd]
    rfl
  have h1 : strip0x k = k := by
    unfold strip0x
    split
    · rename_i rest heq
      have hx : 'x' ∈ k.data := by
        rw [heq]
        simp
      have := hhex 'x' hx
      exact absurd this (by decide)
    · rfl
  unfold initOrderSigner
  rw [h1, h2]

/-- Closed witness for C10 with a concrete derivation function and the
two-character hex key "ab". -/
theorem init_prefix_insensitive_witness :
    initOrderSigner (fun s => some { address := s }) "ab" =
      initOrderSigner (fun s => some { address := s }) ("0x" ++ "ab") :=
  init_prefix_insensitive (fun s => some { address := s }) "ab" (by decide)

end PolySigner
